import Mathlib

/-!
Shallow embedding of the nspic browser scripts.

`src/static/gallery.js` drives one scroll-position indicator per gallery:
an `IntersectionObserver` (threshold 0.6) watches the image items; the
callback `onIntersectionObserved` activates the indicator whose index is
`Images.indexOf(entry.target)` whenever an entry is intersecting with
ratio at least 0.6, and `activateIndicator` toggles each indicator's
`Active` class to `i === index`.

The upload script builds one `XMLHttpRequest` posting a `FormData`
(description plus the selected files) to `serve_prefix + "/upload/"`
with a 3 600 000 ms timeout, and a progress listener that writes
`Math.round(e.loaded / total_size * 100) + "%"` into the progress bar
when `e.loaded <= total_size`, then overwrites with `100%` when
`e.loaded == e.total`.

Items and DOM elements are modelled by natural-number identities,
intersection ratios by rationals, indicator state by a list of booleans
(the presence of the `Active` class).
-/

namespace Nspic

/-- One visibility notification delivered by the observer: the target's
identity, the `isIntersecting` flag and the measured intersection ratio. -/
structure Entry where
  target : Nat
  isIntersecting : Bool
  intersectionRatio : ℚ
deriving DecidableEq

/-- `Array.prototype.indexOf` scanning from position `i`: first index of
`x`, or `-1` when `x` does not occur. -/
def jsIndexOfFrom (x : Nat) : List Nat → Nat → Int
  | [], _ => -1
  | y :: ys, i => if y = x then (i : Int) else jsIndexOfFrom x ys (i + 1)

/-- `Images.indexOf(target)` from `gallery.js` line 20. -/
def jsIndexOf (xs : List Nat) (x : Nat) : Int := jsIndexOfFrom x xs 0

/-- The body of `Indicators.forEach((indicator, i) => classList.toggle("Active", i === index))`
unrolled from position `i`. -/
def activateFrom (index : Int) (i : Nat) : List Bool → List Bool
  | [] => []
  | _ :: rest => decide ((i : Int) = index) :: activateFrom index (i + 1) rest

/-- `activateIndicator` from `gallery.js` lines 26–31: indicator `i`
becomes active exactly when `i === index`. -/
def activateIndicator (index : Int) (indicators : List Bool) : List Bool :=
  activateFrom index 0 indicators

/-- The literal `0.6` of `gallery.js` (observer threshold and ratio
check), as a normalised rational so that concrete runs reduce in the
kernel; `threshold_lit` identifies it with `6/10`. -/
def threshold : ℚ := ⟨3, 5, by decide, by decide⟩

/-- Processing of a single observer entry (`gallery.js` lines 16–23):
when the entry is intersecting with ratio at least 0.6, activate the
indicator at `Images.indexOf(entry.target)`; otherwise do nothing. -/
def processEntry (images : List Nat) (s : List Bool) (e : Entry) : List Bool :=
  if e.isIntersecting = true ∧ threshold ≤ e.intersectionRatio then
    activateIndicator (jsIndexOf images e.target) s
  else s

/-- `onIntersectionObserved` (`gallery.js` lines 14–24): the delivered
batch is processed in order. -/
def onIntersectionObserved (images : List Nat) (entries : List Entry)
    (s : List Bool) : List Bool :=
  entries.foldl (processEntry images) s

/-- Modelled from the spec: the page markup that renders the indicator
elements is not under `src/`; per §3 the initial state has zero active
indicators ("initial state: zero active, until the first qualifying
visibility event arrives"). -/
def initialIndicators (n : Nat) : List Bool := List.replicate n false

/-- Number of indicators carrying the `Active` class. -/
def countActive (s : List Bool) : Nat := s.count true


/-- One gallery instance as built by `AllIndicatorLists.forEach`
(`gallery.js` lines 3–36): its own `Images` sequence and its own
indicator states. -/
structure Gallery where
  images : List Nat
  indicators : List Bool
deriving DecidableEq

/-- Delivery of one observer entry to one gallery's handler: only that
gallery's closed-over `Indicators` are touched. -/
def stepGallery (e : Entry) (g : Gallery) : Gallery :=
  { g with indicators := processEntry g.images g.indicators e }

/-- Delivery of an entry addressed to the gallery at position `gi` of the
page, walking the page from position `j`. -/
def notifyFrom (gi : Nat) (e : Entry) : Nat → List Gallery → List Gallery
  | _, [] => []
  | j, g :: gs =>
      (if j = gi then stepGallery e g else g) :: notifyFrom gi e (j + 1) gs

/-- Delivery of an entry addressed to the gallery at position `gi`: each
gallery instance has its own subscription, so no other gallery is
touched. -/
def notifyPage (gi : Nat) (e : Entry) (page : List Gallery) : List Gallery :=
  notifyFrom gi e 0 page

/-- One selected file: only its byte size matters to the script, plus an
identity so distinct files stay distinct in the form data. -/
structure UploadFile where
  ident : Nat
  size : Nat
deriving DecidableEq

/-- A value appended to the `FormData`: a string field or a file. -/
inductive FormValue where
  | str (s : String)
  | file (f : UploadFile)
deriving DecidableEq

/-- The one `XMLHttpRequest` the upload script configures and sends. -/
structure Request where
  method : String
  url : String
  timeout : Nat
  body : List (String × FormValue)
deriving DecidableEq

/-- `formdata.append(key, value)`. -/
def formAppend (fd : List (String × FormValue)) (k : String) (v : FormValue) :
    List (String × FormValue) :=
  fd ++ [(k, v)]

/-- The loop of `postFile` over `files_control.files`: append each file
under the key `FileToUpload` and accumulate `total_size`. -/
def fileLoop (files : List UploadFile) (fd : List (String × FormValue)) :
    List (String × FormValue) × Nat :=
  files.foldl
    (fun acc f => (formAppend acc.1 "FileToUpload" (FormValue.file f), acc.2 + f.size))
    (fd, 0)

/-- `postFile` from the upload script: build the form data (the `Desc`
field, then the selected files), open a post to
`serve_prefix + "/upload/"`, set the timeout to 3 600 000 ms and send.
The result lists every request sent. -/
def postFile (servePfx : String) (desc : String) (files : List UploadFile) :
    List Request :=
  let fd0 := formAppend [] "Desc" (FormValue.str desc)
  let loop := fileLoop files fd0
  [{ method := "post"
     url := servePfx ++ "/upload/"
     timeout := 3600000
     body := loop.1 }]

/-- `total_size` as accumulated by `postFile`'s loop. -/
def totalSize (files : List UploadFile) : Nat := (fileLoop files []).2

/-- The progress listener of `postFile`, as the new width/label percent
of the progress bar given the previous one `display`: when
`e.loaded <= total_size` it writes `Math.round(e.loaded / total_size * 100)`,
and when `e.loaded == e.total` it overwrites with 100. -/
def onUploadProgress (total_size : Nat) (loaded total : Nat) (display : Int) : Int :=
  let d1 := if loaded ≤ total_size
    then round ((loaded : ℚ) / (total_size : ℚ) * 100)
    else display
  if loaded = total then 100 else d1


section Lemmas

theorem threshold_lit : threshold = 6/10 := by
  rw [threshold, Rat.mk'_eq_divInt, Rat.divInt_eq_div]
  norm_num


theorem activateFrom_length (index : Int) : ∀ (i : Nat) (s : List Bool),
    (activateFrom index i s).length = s.length
  | _, [] => rfl
  | i, _ :: rest => congrArg Nat.succ (activateFrom_length index (i + 1) rest)

theorem activateFrom_getElem? (index : Int) : ∀ (i : Nat) (s : List Bool) (j : Nat),
    (activateFrom index i s)[j]? =
      (s[j]?).map (fun _ => decide (((i + j : Nat) : Int) = index))
  | _, [], j => by simp [activateFrom]
  | i, b :: rest, 0 => by simp [activateFrom]
  | i, b :: rest, j + 1 => by
      have h := activateFrom_getElem? index (i + 1) rest j
      simp only [activateFrom, List.getElem?_cons_succ, h]
      have : i + 1 + j = i + (j + 1) := by omega
      rw [this]

theorem activateIndicator_length (index : Int) (s : List Bool) :
    (activateIndicator index s).length = s.length :=
  activateFrom_length index 0 s

theorem activateIndicator_getElem? (index : Int) (s : List Bool) (j : Nat) :
    (activateIndicator index s)[j]? =
      (s[j]?).map (fun _ => decide ((j : Int) = index)) := by
  have h := activateFrom_getElem? index 0 s j
  simpa [activateIndicator] using h

theorem activateFrom_out (index : Int) : ∀ (i : Nat) (s : List Bool),
    (index < (i : Int) ∨ ((i + s.length : Nat) : Int) ≤ index) →
    activateFrom index i s = List.replicate s.length false
  | _, [], _ => rfl
  | i, b :: rest, h => by
      have hne : ¬ ((i : Int) = index) := by
        rcases h with h | h
        · omega
        · have : ((i + (rest.length + 1) : Nat) : Int) ≤ index := by
            simpa [List.length_cons] using h
          push_cast at this
          omega
      have hrest : activateFrom index (i + 1) rest = List.replicate rest.length false := by
        apply activateFrom_out index (i + 1) rest
        rcases h with h | h
        · exact Or.inl (by omega)
        · refine Or.inr ?_
          have : ((i + (rest.length + 1) : Nat) : Int) ≤ index := by
            simpa [List.length_cons] using h
          push_cast at this ⊢
          omega
      simp [activateFrom, hne, hrest, List.replicate_succ]

theorem activateIndicator_out (index : Int) (s : List Bool)
    (h : index < 0 ∨ (s.length : Int) ≤ index) :
    activateIndicator index s = List.replicate s.length false := by
  apply activateFrom_out index 0 s
  simpa using h

theorem count_replicate_false (n : Nat) :
    countActive (List.replicate n false) = 0 := by
  simp [countActive, List.count_replicate]

theorem activateFrom_count_le_one (index : Int) : ∀ (i : Nat) (s : List Bool),
    (activateFrom index i s).count true ≤ 1
  | _, [] => by simp [activateFrom]
  | i, b :: rest => by
      by_cases hi : (i : Int) = index
      · have hrest : activateFrom index (i + 1) rest = List.replicate rest.length false :=
          activateFrom_out index (i + 1) rest (Or.inl (by omega))
        simp [activateFrom, hi, hrest, List.count_replicate]
      · have h := activateFrom_count_le_one index (i + 1) rest
        simp only [activateFrom, hi, decide_eq_true_eq]
        rw [List.count_cons]
        simpa using h

theorem activateIndicator_count_le_one (index : Int) (s : List Bool) :
    countActive (activateIndicator index s) ≤ 1 :=
  activateFrom_count_le_one index 0 s

theorem activateFrom_count_in (index : Int) : ∀ (i : Nat) (s : List Bool),
    (i : Int) ≤ index → index < ((i + s.length : Nat) : Int) →
    (activateFrom index i s).count true = 1
  | i, [], hlo, hhi => by simp at hlo hhi; omega
  | i, b :: rest, hlo, hhi => by
      by_cases hi : (i : Int) = index
      · have hrest : activateFrom index (i + 1) rest = List.replicate rest.length false :=
          activateFrom_out index (i + 1) rest (Or.inl (by omega))
        simp [activateFrom, hi, hrest, List.count_replicate]
      · have hlo' : ((i + 1 : Nat) : Int) ≤ index := by push_cast; omega
        have hhi' : index < ((i + 1 + rest.length : Nat) : Int) := by
          push_cast; push_cast at hhi
          simp [List.length_cons] at hhi
          omega
        have h := activateFrom_count_in index (i + 1) rest hlo' hhi'
        simp only [activateFrom, hi, decide_eq_true_eq]
        rw [List.count_cons]
        simp [hi, h]

theorem activateIndicator_count_in (index : Int) (s : List Bool)
    (h0 : 0 ≤ index) (hlt : index < (s.length : Int)) :
    countActive (activateIndicator index s) = 1 :=
  activateFrom_count_in index 0 s (by simpa using h0) (by simpa using hlt)

theorem jsIndexOfFrom_not_mem (x : Nat) : ∀ (xs : List Nat) (i : Nat),
    x ∉ xs → jsIndexOfFrom x xs i = -1
  | [], _, _ => rfl
  | y :: ys, i, h => by
      have hy : ¬ (y = x) := fun hxy => h (hxy ▸ List.mem_cons_self y ys)
      have hrest : x ∉ ys := fun hm => h (List.mem_cons_of_mem y hm)
      simp [jsIndexOfFrom, hy, jsIndexOfFrom_not_mem x ys (i + 1) hrest]

theorem jsIndexOf_not_mem (xs : List Nat) (x : Nat) (h : x ∉ xs) :
    jsIndexOf xs x = -1 :=
  jsIndexOfFrom_not_mem x xs 0 h

theorem processEntry_count_le_one (images : List Nat) (s : List Bool) (e : Entry)
    (h : countActive s ≤ 1) : countActive (processEntry images s e) ≤ 1 := by
  unfold processEntry
  split
  · exact activateIndicator_count_le_one _ s
  · exact h

theorem onIntersectionObserved_count_le_one (images : List Nat) :
    ∀ (entries : List Entry) (s : List Bool), countActive s ≤ 1 →
    countActive (onIntersectionObserved images entries s) ≤ 1
  | [], _, h => h
  | e :: es, s, h =>
      onIntersectionObserved_count_le_one images es (processEntry images s e)
        (processEntry_count_le_one images s e h)

theorem activateFrom_congr_length (index : Int) : ∀ (i : Nat) (s t : List Bool),
    s.length = t.length → activateFrom index i s = activateFrom index i t
  | _, [], [], _ => rfl
  | i, a :: s, b :: t, h => by
      simp only [List.length_cons, Nat.succ.injEq] at h
      simp [activateFrom, activateFrom_congr_length index (i + 1) s t h]

theorem activateIndicator_idem (index index' : Int) (s : List Bool) :
    activateIndicator index (activateIndicator index' s) =
      activateIndicator index s :=
  activateFrom_congr_length index 0 _ s (activateFrom_length index' 0 s)

theorem onIntersectionObserved_no_qualifying (images : List Nat) :
    ∀ (entries : List Entry) (s : List Bool),
    (∀ e ∈ entries, ¬ (e.isIntersecting = true ∧ threshold ≤ e.intersectionRatio)) →
    onIntersectionObserved images entries s = s
  | [], _, _ => rfl
  | e :: es, s, h => by
      have h1 : processEntry images s e = s := by
        unfold processEntry
        rw [if_neg (h e (List.mem_cons_self e es))]
      have h2 := onIntersectionObserved_no_qualifying images es (processEntry images s e)
        (fun e' he' => h e' (List.mem_cons_of_mem e he'))
      calc onIntersectionObserved images (e :: es) s
          = onIntersectionObserved images es (processEntry images s e) := rfl
        _ = processEntry images s e := h2
        _ = s := h1

end Lemmas

theorem notifyFrom_getElem? (gi : Nat) (e : Entry) : ∀ (j : Nat) (page : List Gallery) (k : Nat),
    (notifyFrom gi e j page)[k]? =
      (page[k]?).map (fun g => if j + k = gi then stepGallery e g else g)
  | _, [], k => by simp [notifyFrom]
  | j, g :: gs, 0 => by simp [notifyFrom]
  | j, g :: gs, k + 1 => by
      have h := notifyFrom_getElem? gi e (j + 1) gs k
      simp only [notifyFrom, List.getElem?_cons_succ, h]
      have : j + 1 + k = j + (k + 1) := by omega
      rw [this]

theorem notifyPage_getElem? (gi : Nat) (e : Entry) (page : List Gallery) (k : Nat) :
    (notifyPage gi e page)[k]? =
      (page[k]?).map (fun g => if k = gi then stepGallery e g else g) := by
  have h := notifyFrom_getElem? gi e 0 page k
  simpa [notifyPage] using h

theorem fileLoop_foldl_eq : ∀ (files : List UploadFile)
    (fd : List (String × FormValue)) (n : Nat),
    files.foldl
      (fun acc f => (formAppend acc.1 "FileToUpload" (FormValue.file f), acc.2 + f.size))
      (fd, n) =
    (fd ++ files.map (fun f => ("FileToUpload", FormValue.file f)),
      n + (files.map UploadFile.size).sum)
  | [], fd, n => by simp
  | f :: fs, fd, n => by
      have h := fileLoop_foldl_eq fs (formAppend fd "FileToUpload" (FormValue.file f))
        (n + f.size)
      simp only [formAppend] at h
      simp only [List.foldl_cons, formAppend]
      rw [h]
      simp [List.append_assoc, Nat.add_assoc]

theorem fileLoop_eq (files : List UploadFile) (fd : List (String × FormValue)) :
    fileLoop files fd =
      (fd ++ files.map (fun f => ("FileToUpload", FormValue.file f)),
        (files.map UploadFile.size).sum) := by
  have h := fileLoop_foldl_eq files fd 0
  simpa [fileLoop] using h

/-- C6: for every gallery and every in-range target index `i`, the
activation procedure (`activateIndicator`) sets the indicator at index
`i` to active and every other indicator of that gallery to inactive,
regardless of prior state. -/
theorem claim6_activate_in_range (s : List Bool) (index : Int) (i : Nat)
    (hi : (i : Int) = index) (hlen : i < s.length) :
    (activateIndicator index s)[i]? = some true ∧
    ∀ j : Nat, j < s.length → j ≠ i → (activateIndicator index s)[j]? = some false := by
  constructor
  · rw [activateIndicator_getElem?, List.getElem?_eq_getElem hlen]
    simp [hi]
  · intro j hj hne
    rw [activateIndicator_getElem?, List.getElem?_eq_getElem hj]
    have : ¬ ((j : Int) = index) := by
      rw [← hi]
      exact_mod_cast fun h => hne h
    simp [this]

theorem claim6_witness :
    (activateIndicator 1 [false, false, true])[1]? = some true ∧
    ∀ j : Nat, j < [false, false, true].length → j ≠ 1 →
      (activateIndicator 1 [false, false, true])[j]? = some false :=
  claim6_activate_in_range [false, false, true] 1 1 (by decide) (by decide)

/-- C10: for every gallery and every out-of-range target index
(negative — including the `-1` an `indexOf` miss produces — or at least
the number of indicators), the activation procedure sets every indicator
of the gallery to inactive, leaving zero active. -/
theorem claim10_activate_out_of_range (s : List Bool) (index : Int)
    (h : index < 0 ∨ (s.length : Int) ≤ index) :
    activateIndicator index s = List.replicate s.length false ∧
    countActive (activateIndicator index s) = 0 := by
  have he := activateIndicator_out index s h
  exact ⟨he, by rw [he]; exact count_replicate_false _⟩

theorem claim10_witness :
    activateIndicator (-1) [true, true] = List.replicate [true, true].length false ∧
    countActive (activateIndicator (-1) [true, true]) = 0 :=
  claim10_activate_out_of_range [true, true] (-1) (Or.inl (by decide))

/-- C1 as stated is false: a qualifying notification whose item is
missing from `Images` runs `activateIndicator(-1)`, which deactivates an
active indicator instead of leaving the state unchanged. Here the
gallery holds item `0` with its sole indicator active, and a
notification for the unknown item `1` (intersecting, ratio 0.9) flips
that indicator off. -/
theorem claim1_counterexample :
    processEntry [0] [true] ⟨1, true, ⟨9, 10, by decide, by decide⟩⟩ = [false] ∧
    [false] ≠ [true] := by
  constructor
  · decide
  · decide

/-- C1 amended: a qualifying notification whose item is not in the
gallery's `Images` sequence activates no indicator, but instead of
leaving the state unchanged it sets every indicator of the gallery to
inactive. -/
theorem claim1_missing_item (images : List Nat) (s : List Bool) (e : Entry)
    (hmem : e.target ∉ images) (hint : e.isIntersecting = true)
    (hr : (6/10 : ℚ) ≤ e.intersectionRatio) :
    processEntry images s e = List.replicate s.length false ∧
    countActive (processEntry images s e) = 0 := by
  have hidx := jsIndexOf_not_mem images e.target hmem
  have hcond : e.isIntersecting = true ∧ threshold ≤ e.intersectionRatio :=
    ⟨hint, by rw [threshold_lit]; exact hr⟩
  have h1 : processEntry images s e = List.replicate s.length false := by
    unfold processEntry
    rw [if_pos hcond, hidx]
    exact activateIndicator_out _ _ (Or.inl (by decide))
  exact ⟨h1, by rw [h1]; exact count_replicate_false _⟩

theorem claim1_witness :
    processEntry [0] [true] ⟨1, true, ⟨9, 10, by decide, by decide⟩⟩ =
      List.replicate [true].length false ∧
    countActive (processEntry [0] [true] ⟨1, true, ⟨9, 10, by decide, by decide⟩⟩) = 0 :=
  claim1_missing_item [0] [true] ⟨1, true, ⟨9, 10, by decide, by decide⟩⟩
    (by decide) rfl
    (by rw [show (⟨9, 10, by decide, by decide⟩ : ℚ) = 9/10 from by
          rw [Rat.mk'_eq_divInt, Rat.divInt_eq_div]; norm_num]
        norm_num)

/-- C2: the initial state has exactly zero active indicators; as long as
only non-qualifying notifications (not intersecting, or ratio below 0.6)
have been processed — that is, before the first qualifying notification —
the state still has exactly zero active; and after any sequence of
processed notifications at most one indicator of the gallery is
active. -/
theorem claim2_at_most_one_active (images : List Nat) (n : Nat)
    (entries : List Entry) :
    countActive (initialIndicators n) = 0 ∧
    ((∀ e ∈ entries, ¬ (e.isIntersecting = true ∧ (6/10 : ℚ) ≤ e.intersectionRatio)) →
      countActive (onIntersectionObserved images entries (initialIndicators n)) = 0) ∧
    countActive (onIntersectionObserved images entries (initialIndicators n)) ≤ 1 := by
  refine ⟨count_replicate_false n, ?_, ?_⟩
  · intro h
    have heq := onIntersectionObserved_no_qualifying images entries (initialIndicators n)
      (fun e he => by rw [threshold_lit]; exact h e he)
    rw [heq]
    exact count_replicate_false n
  · apply onIntersectionObserved_count_le_one
    rw [show initialIndicators n = List.replicate n false from rfl,
      count_replicate_false n]
    exact Nat.zero_le 1

/-- C5: activation is idempotent — activating an index twice yields the
same indicator states as activating it once, and re-processing the same
notification leaves the state of `processEntry` unchanged. -/
theorem claim5_idempotent (index : Int) (s : List Bool) (images : List Nat)
    (e : Entry) :
    activateIndicator index (activateIndicator index s) = activateIndicator index s ∧
    processEntry images (processEntry images s e) e = processEntry images s e := by
  refine ⟨activateIndicator_idem index index s, ?_⟩
  unfold processEntry
  split
  · exact activateIndicator_idem _ _ s
  · rfl

/-- C3: a notification that is not intersecting, or intersecting with
ratio strictly below 0.6, changes no indicator state; a notification
intersecting with ratio at least 0.6 (the bound is inclusive) activates
the indicator at the notification item's index in `Images`. -/
theorem claim3_threshold (images : List Nat) (s : List Bool) (e : Entry) :
    ((e.isIntersecting = false ∨ e.intersectionRatio < 6/10) →
      processEntry images s e = s) ∧
    (e.isIntersecting = true → (6/10 : ℚ) ≤ e.intersectionRatio →
      ∀ i : Nat, jsIndexOf images e.target = (i : Int) → i < s.length →
        (processEntry images s e)[i]? = some true) := by
  constructor
  · intro h
    unfold processEntry
    rw [if_neg]
    rintro ⟨h1, h2⟩
    rcases h with h | h
    · exact Bool.false_ne_true (h.symm.trans h1)
    · rw [threshold_lit] at h2
      exact absurd h2 (not_le.mpr h)
  · intro h1 h2 i hi hlen
    have hcond : e.isIntersecting = true ∧ threshold ≤ e.intersectionRatio :=
      ⟨h1, by rw [threshold_lit]; exact h2⟩
    unfold processEntry
    rw [if_pos hcond, hi, activateIndicator_getElem?, List.getElem?_eq_getElem hlen]
    simp

theorem claim3_witness :
    processEntry [7, 8] [false, false] ⟨8, true, ⟨59, 100, by decide, by decide⟩⟩ =
      [false, false] ∧
    (processEntry [7, 8] [false, false] ⟨8, true, ⟨3, 5, by decide, by decide⟩⟩)[1]? =
      some true :=
  ⟨(claim3_threshold [7, 8] [false, false] ⟨8, true, ⟨59, 100, by decide, by decide⟩⟩).1
      (Or.inr (by
        rw [show (⟨59, 100, by decide, by decide⟩ : ℚ) = 59/100 from by
          rw [Rat.mk'_eq_divInt, Rat.divInt_eq_div]; norm_num]
        norm_num)),
    (claim3_threshold [7, 8] [false, false] ⟨8, true, ⟨3, 5, by decide, by decide⟩⟩).2
      rfl
      (by
        rw [show (⟨3, 5, by decide, by decide⟩ : ℚ) = 3/5 from by
          rw [Rat.mk'_eq_divInt, Rat.divInt_eq_div]; norm_num]
        norm_num)
      1 (by decide) (by decide)⟩

/-- C4: processing, in delivery order and from any starting state of a
gallery whose items `a` and `b` sit at indices 2 and 5, the notification
sequence [(a, intersecting, 0.9), (a, intersecting, 0.0),
(b, intersecting, 0.8)] ends with exactly the indicator at index 5
active: the zero-ratio notification is ignored and the later valid
activation for index 5 supersedes the earlier one for index 2. -/
theorem claim4_sequence (images : List Nat) (s : List Bool) (a b : Nat)
    (ha : jsIndexOf images a = 2) (hb : jsIndexOf images b = 5)
    (hlen : 5 < s.length) :
    (onIntersectionObserved images
      [⟨a, true, ⟨9, 10, by decide, by decide⟩⟩,
       ⟨a, true, ⟨0, 1, by decide, by decide⟩⟩,
       ⟨b, true, ⟨4, 5, by decide, by decide⟩⟩] s)[5]? = some true ∧
    ∀ j : Nat, j < s.length →
      (onIntersectionObserved images
        [⟨a, true, ⟨9, 10, by decide, by decide⟩⟩,
         ⟨a, true, ⟨0, 1, by decide, by decide⟩⟩,
         ⟨b, true, ⟨4, 5, by decide, by decide⟩⟩] s)[j]? =
        some (decide (j = 5)) := by
  have key : ∀ j : Nat, j < s.length →
      (onIntersectionObserved images
        [⟨a, true, ⟨9, 10, by decide, by decide⟩⟩,
         ⟨a, true, ⟨0, 1, by decide, by decide⟩⟩,
         ⟨b, true, ⟨4, 5, by decide, by decide⟩⟩] s)[j]? =
        some (decide (j = 5)) := by
    intro j hj
    have h1 : processEntry images s ⟨a, true, ⟨9, 10, by decide, by decide⟩⟩ =
        activateIndicator 2 s := by
      unfold processEntry
      rw [if_pos ⟨rfl, (by decide : threshold ≤ (⟨9, 10, by decide, by decide⟩ : ℚ))⟩]
      simp only
      rw [ha]
    have h2 : processEntry images (activateIndicator 2 s)
        ⟨a, true, ⟨0, 1, by decide, by decide⟩⟩ = activateIndicator 2 s := by
      unfold processEntry
      rw [if_neg]
      rintro ⟨-, hc⟩
      exact absurd hc (by decide : ¬ threshold ≤ (⟨0, 1, by decide, by decide⟩ : ℚ))
    have h3 : processEntry images (activateIndicator 2 s)
        ⟨b, true, ⟨4, 5, by decide, by decide⟩⟩ =
        activateIndicator 5 (activateIndicator 2 s) := by
      unfold processEntry
      rw [if_pos ⟨rfl, (by decide : threshold ≤ (⟨4, 5, by decide, by decide⟩ : ℚ))⟩]
      simp only
      rw [hb]
    have hj2 : j < (activateIndicator 2 s).length := by
      rw [activateIndicator_length]; exact hj
    simp only [onIntersectionObserved, List.foldl_cons, List.foldl_nil, h1, h2, h3]
    rw [activateIndicator_getElem?, List.getElem?_eq_getElem hj2]
    have hcast : ((j : Int) = 5) = (j = 5) :=
      propext ⟨fun h => by exact_mod_cast h, fun h => by exact_mod_cast h⟩
    simp [hcast]
  exact ⟨by simpa using key 5 hlen, key⟩

theorem claim4_witness :
    (onIntersectionObserved [0, 1, 2, 3, 4, 5]
      [⟨2, true, ⟨9, 10, by decide, by decide⟩⟩,
       ⟨2, true, ⟨0, 1, by decide, by decide⟩⟩,
       ⟨5, true, ⟨4, 5, by decide, by decide⟩⟩]
      [true, false, true, false, true, false])[5]? = some true ∧
    ∀ j : Nat, j < [true, false, true, false, true, false].length →
      (onIntersectionObserved [0, 1, 2, 3, 4, 5]
        [⟨2, true, ⟨9, 10, by decide, by decide⟩⟩,
         ⟨2, true, ⟨0, 1, by decide, by decide⟩⟩,
         ⟨5, true, ⟨4, 5, by decide, by decide⟩⟩]
        [true, false, true, false, true, false])[j]? = some (decide (j = 5)) :=
  claim4_sequence [0, 1, 2, 3, 4, 5] [true, false, true, false, true, false]
    2 5 (by decide) (by decide) (by decide)

/-- C7: galleries are independent — a notification delivered to the
gallery at one page position leaves every other gallery's entry of the
page untouched; and when two galleries `A` and `B` each receive a valid
activation for their own index 1, each ends with its own index-1
indicator active (exactly one active) while the other's indicators are
exactly as its own activations left them. -/
theorem claim7_independent_galleries (page : List Gallery) (gi k : Nat)
    (e : Entry) (A B : Gallery) (eA eB : Entry) :
    (k ≠ gi → (notifyPage gi e page)[k]? = page[k]?) ∧
    (eA.isIntersecting = true → (6/10 : ℚ) ≤ eA.intersectionRatio →
     jsIndexOf A.images eA.target = 1 →
     eB.isIntersecting = true → (6/10 : ℚ) ≤ eB.intersectionRatio →
     jsIndexOf B.images eB.target = 1 →
     notifyPage 1 eB (notifyPage 0 eA [A, B]) =
       [⟨A.images, activateIndicator 1 A.indicators⟩,
        ⟨B.images, activateIndicator 1 B.indicators⟩] ∧
     (notifyPage 0 eA [A, B])[1]? = some B ∧
     (1 < A.indicators.length → countActive (activateIndicator 1 A.indicators) = 1) ∧
     (1 < B.indicators.length → countActive (activateIndicator 1 B.indicators) = 1)) := by
  constructor
  · intro hne
    rw [notifyPage_getElem?]
    cases page[k]? with
    | none => rfl
    | some g => simp [hne]
  · intro hA1 hA2 hA3 hB1 hB2 hB3
    have hsA : stepGallery eA A = ⟨A.images, activateIndicator 1 A.indicators⟩ := by
      unfold stepGallery processEntry
      rw [if_pos ⟨hA1, by rw [threshold_lit]; exact hA2⟩, hA3]
    have hsB : stepGallery eB B = ⟨B.images, activateIndicator 1 B.indicators⟩ := by
      unfold stepGallery processEntry
      rw [if_pos ⟨hB1, by rw [threshold_lit]; exact hB2⟩, hB3]
    refine ⟨?_, ?_, ?_, ?_⟩
    · simp [notifyPage, notifyFrom, hsA, hsB]
    · simp [notifyPage, notifyFrom]
    · intro hlA
      exact activateIndicator_count_in 1 A.indicators (by decide) (by exact_mod_cast hlA)
    · intro hlB
      exact activateIndicator_count_in 1 B.indicators (by decide) (by exact_mod_cast hlB)

theorem claim7_witness :
    (notifyPage 0 ⟨11, true, ⟨9, 10, by decide, by decide⟩⟩
        [⟨[10, 11], [false, false]⟩, ⟨[20, 21], [true, false]⟩])[1]? =
      ([⟨[10, 11], [false, false]⟩, ⟨[20, 21], [true, false]⟩] :
        List Gallery)[1]? ∧
    (notifyPage 1 ⟨21, true, ⟨7, 10, by decide, by decide⟩⟩
        (notifyPage 0 ⟨11, true, ⟨9, 10, by decide, by decide⟩⟩
          [⟨[10, 11], [false, false]⟩, ⟨[20, 21], [true, false]⟩]) =
      [⟨[10, 11], activateIndicator 1 [false, false]⟩,
       ⟨[20, 21], activateIndicator 1 [true, false]⟩] ∧
    (notifyPage 0 ⟨11, true, ⟨9, 10, by decide, by decide⟩⟩
        [⟨[10, 11], [false, false]⟩, ⟨[20, 21], [true, false]⟩])[1]? =
      some ⟨[20, 21], [true, false]⟩ ∧
    (1 < [false, false].length → countActive (activateIndicator 1 [false, false]) = 1) ∧
    (1 < [true, false].length → countActive (activateIndicator 1 [true, false]) = 1)) := by
  have h := claim7_independent_galleries
    [⟨[10, 11], [false, false]⟩, ⟨[20, 21], [true, false]⟩] 0 1
    ⟨11, true, ⟨9, 10, by decide, by decide⟩⟩
    ⟨[10, 11], [false, false]⟩ ⟨[20, 21], [true, false]⟩
    ⟨11, true, ⟨9, 10, by decide, by decide⟩⟩
    ⟨21, true, ⟨7, 10, by decide, by decide⟩⟩
  refine ⟨h.1 (by decide), h.2 rfl ?_ (by decide) rfl ?_ (by decide)⟩
  · rw [show (⟨9, 10, by decide, by decide⟩ : ℚ) = 9/10 from by
      rw [Rat.mk'_eq_divInt, Rat.divInt_eq_div]; norm_num]
    norm_num
  · rw [show (⟨7, 10, by decide, by decide⟩ : ℚ) = 7/10 from by
      rw [Rat.mk'_eq_divInt, Rat.divInt_eq_div]; norm_num]
    norm_num

/-- C8: the upload helper performs exactly one submit operation — a
single post request to `<detected base path>/upload/` whose multipart
body is the description field followed by the selected files, with the
timeout set to 3 600 000 ms. -/
theorem claim8_postFile (servePfx desc : String) (files : List UploadFile) :
    postFile servePfx desc files =
      [{ method := "post"
         url := servePfx ++ "/upload/"
         timeout := 3600000
         body := ("Desc", FormValue.str desc) ::
           files.map (fun f => ("FileToUpload", FormValue.file f)) }] := by
  unfold postFile
  simp only [fileLoop_eq, formAppend]
  simp

/-- C9 as stated is false: with one selected file of 2 bytes
(`total_size = 2`) and a progress event carrying `loaded = 1`,
`total = 4` (the multipart body is larger than the bare file bytes), the
script writes 50 — `round(loaded / total_size * 100)` — while
bytes-sent divided by bytes-total, times 100, rounded, is 25. -/
theorem claim9_counterexample :
    onUploadProgress (totalSize [⟨0, 2⟩]) 1 4 0 = 50 ∧
    round ((1 : ℚ) / (4 : ℚ) * 100) = 25 ∧ (50 : ℤ) ≠ 25 := by
  refine ⟨?_, by norm_num [round_eq], by decide⟩
  have hts : totalSize [⟨0, 2⟩] = 2 := rfl
  rw [hts]
  unfold onUploadProgress
  norm_num [round_eq]

/-- C9 amended: the divisor of the displayed percentage is the
precomputed sum of the selected files' sizes (`total_size`), not the
event's bytes-total; the value `round(loaded / total_size * 100)` is
written only when `loaded ≤ total_size`, the display is forced to 100
when `loaded = total`, and otherwise the display is left unchanged; for
positive `total_size` every outcome either leaves the display unchanged
or writes a value between 0 and 100 inclusive. -/
theorem claim9_progress (total_size loaded total : Nat) (d : Int)
    (hts : 0 < total_size) :
    (loaded ≤ total_size → loaded ≠ total →
      onUploadProgress total_size loaded total d =
        round ((loaded : ℚ) / (total_size : ℚ) * 100)) ∧
    (loaded = total → onUploadProgress total_size loaded total d = 100) ∧
    (total_size < loaded → loaded ≠ total →
      onUploadProgress total_size loaded total d = d) ∧
    (onUploadProgress total_size loaded total d = d ∨
      (0 ≤ onUploadProgress total_size loaded total d ∧
        onUploadProgress total_size loaded total d ≤ 100)) := by
  refine ⟨?_, ?_, ?_, ?_⟩
  · intro h1 h2
    unfold onUploadProgress
    simp only [if_pos h1, if_neg h2]
  · intro h2
    unfold onUploadProgress
    simp only [if_pos h2]
  · intro h1 h2
    unfold onUploadProgress
    simp only [if_neg h2, if_neg (not_le.mpr h1)]
  · by_cases h2 : loaded = total
    · right
      unfold onUploadProgress
      simp only [if_pos h2]
      norm_num
    · by_cases h1 : loaded ≤ total_size
      · right
        unfold onUploadProgress
        simp only [if_pos h1, if_neg h2]
        have hq0 : (0 : ℚ) ≤ (loaded : ℚ) / (total_size : ℚ) * 100 := by positivity
        have hq100 : (loaded : ℚ) / (total_size : ℚ) * 100 ≤ 100 := by
          have hle : (loaded : ℚ) / (total_size : ℚ) ≤ 1 := by
            rw [div_le_one (by exact_mod_cast hts)]
            exact_mod_cast h1
          calc (loaded : ℚ) / (total_size : ℚ) * 100 ≤ 1 * 100 :=
                mul_le_mul_of_nonneg_right hle (by norm_num)
            _ = 100 := by norm_num
        constructor
        · rw [round_eq]
          apply Int.le_floor.mpr
          push_cast
          linarith
        · have hlt : ((round ((loaded : ℚ) / (total_size : ℚ) * 100) : ℤ) : ℚ) < 101 :=
            lt_of_le_of_lt (round_le_add_half _) (by linarith)
          have h101 : round ((loaded : ℚ) / (total_size : ℚ) * 100) < (101 : ℤ) := by
            exact_mod_cast hlt
          omega
      · left
        unfold onUploadProgress
        simp only [if_neg h2, if_neg h1]

theorem claim9_witness :
    ((1 : Nat) ≤ 2 → (1 : Nat) ≠ 4 →
      onUploadProgress 2 1 4 0 = round (((1 : Nat) : ℚ) / ((2 : Nat) : ℚ) * 100)) ∧
    ((1 : Nat) = 4 → onUploadProgress 2 1 4 0 = 100) ∧
    ((2 : Nat) < 1 → (1 : Nat) ≠ 4 → onUploadProgress 2 1 4 0 = 0) ∧
    (onUploadProgress 2 1 4 0 = 0 ∨
      (0 ≤ onUploadProgress 2 1 4 0 ∧ onUploadProgress 2 1 4 0 ≤ 100)) :=
  claim9_progress 2 1 4 0 (by decide)

end Nspic
